import Mathlib

/-!
# kittyfs: navigation state machine, viewport sizing and theme cycling

A shallow embedding of `src/sourcefiles/main.go`.  The Go program is a
bubbletea application: a single `model` value is threaded through `Update`,
which reacts to terminal messages.  Everything the program reaches outside
its own source (the filesystem, `path/filepath`, `encoding/json`, the
operating system name and the embedded `bubbles/list` component) is taken
from an explicit environment `Env`, so that `Update` is a pure function.

Go `int` values are modelled by `Int`.  The arithmetic on the stored terminal
height and the padding wraps as 64-bit two's-complement arithmetic does
(`goInt`), since both operands are arbitrary `int` values.  `len(s)` of a Go
string is its length in bytes, `String.utf8ByteSize`; it is the length of a
string held in memory, so `len` and the `+ 10` of `calculateMaxWidth` stay in
range and are plain integer operations.
-/

namespace Kittyfs

/-- The Go struct `item`: one entry shown in the list. -/
structure item where
  Name : String
  IsDir : Bool
  Path : String
  deriving DecidableEq, Repr

/-- The Go struct `Config`: the persisted colour pair. -/
structure Config where
  BorderColor : String
  HighlightColor : String
  deriving DecidableEq, Repr

/-- One result of `ioutil.ReadDir`: the `Name()` and `IsDir()` of an `os.FileInfo`. -/
structure FileInfo where
  Name : String
  IsDir : Bool
  deriving DecidableEq, Repr

/-- The messages `Update` distinguishes: `tea.WindowSizeMsg`, `tea.KeyMsg`
(by its `String()`), and any other message, which carries a tag only. -/
inductive Msg where
  | WindowSizeMsg (Width Height : Int)
  | KeyMsg (s : String)
  | other (tag : Nat)
  deriving DecidableEq, Repr

/-- A `tea.Cmd` as far as `Update` produces one: `nil`, `tea.Quit`, or a
command handed back by the list component (identified by a tag). -/
inductive Cmd where
  | nil
  | Quit
  | fromList (tag : Nat)
  deriving DecidableEq, Repr

/-- The effects `Update` has on the outside world: starting a process
(`exec.Command(name, args...).Start()`) and writing a file (`os.WriteFile`). -/
inductive Effect where
  | exec (name : String) (args : List String)
  | writeFile (name : String) (data : String)
  deriving DecidableEq, Repr

/-- The `FilterState` of the list component. -/
inductive FilterState where
  | Unfiltered
  | Filtering
  | FilterApplied
  deriving DecidableEq, Repr

/-- The embedded `bubbles/list` component, `list.Model`, as the record of what
the program sets on it and reads from it.  The library is not part of the
program; it is modelled by its state: the items, the title, the size given by
`SetSize`, the help-footer flag given by `SetShowHelp`, the highlight colour
of the delegate given by `SetDelegate`, and the part the component owns
itself, namely the position in `items` of the highlighted entry and the
filter. -/
structure ListModel where
  items : List item
  Title : String
  width : Int
  height : Int
  showHelp : Bool
  delegateColor : String
  cursor : Nat
  filterState : FilterState
  filterValue : String
  deriving DecidableEq, Repr

/-- What the list component answers to a message forwarded to it
(`list.Model.Update`): the part of its state it owns, and a command. -/
structure ListReaction where
  cursor : Nat
  filterState : FilterState
  filterValue : String
  cmd : Cmd

/-- Everything outside the program text.
* `stat p`: does `os.Stat(p)` succeed;
* `readDir p`: `ioutil.ReadDir(p)`, `none` on error;
* `join`, `dir`: `filepath.Join` (of two elements) and `filepath.Dir`;
* `readFile p`: `os.ReadFile(p)`, `none` on error;
* `jsonUnmarshal data cfg`: the value of `cfg` after `json.Unmarshal(data, &cfg)`
  (the program drops the error);
* `jsonMarshalIndent cfg`: the bytes of `json.MarshalIndent(cfg, "", "  ")`;
* `goos`: `runtime.GOOS`;
* `listUpdate`: the reaction of the list component to a forwarded message. -/
structure Env where
  stat : String → Bool
  readDir : String → Option (List FileInfo)
  join : String → String → String
  dir : String → String
  readFile : String → Option String
  jsonUnmarshal : String → Config → Config
  jsonMarshalIndent : Config → String
  goos : String
  listUpdate : ListModel → Msg → ListReaction

/-- The Go struct `model`. -/
structure model where
  list : ListModel
  currentDir : String
  driveSelect : Bool
  drives : List item
  width : Int
  height : Int
  showExtendedHelp : Bool
  borderColor : String
  highlightColor : String
  paddingX : Int
  paddingY : Int
  maxItemWidth : Int
  deriving DecidableEq, Repr

/-- The value a Go `int` operation yields when its mathematical result is `x`:
the 64-bit two's-complement wrap of `x`, in the range from -2^63 to 2^63 - 1. -/
def goInt (x : Int) : Int :=
  (x + 9223372036854775808) % 18446744073709551616 - 9223372036854775808

/-! ## The list component's operations used by the program -/

/-- `list.New(items, delegate, width, height)`: a fresh list. -/
def ListModel.New (items : List item) (delegateColor : String) (width height : Int) : ListModel :=
  { items := items, Title := "List", width := width, height := height, showHelp := true,
    delegateColor := delegateColor, cursor := 0, filterState := FilterState.Unfiltered,
    filterValue := "" }

/-- `SetSize(width, height)`. -/
def ListModel.SetSize (l : ListModel) (width height : Int) : ListModel :=
  { l with width := width, height := height }

/-- `SetItems(items)`.  The highlight position is kept as it is; what the
component does with it is its own affair, and no property below depends on it. -/
def ListModel.SetItems (l : ListModel) (items : List item) : ListModel :=
  { l with items := items }

/-- `SetShowHelp(v)`. -/
def ListModel.SetShowHelp (l : ListModel) (v : Bool) : ListModel :=
  { l with showHelp := v }

/-- `SetDelegate(d)`, for a default delegate whose selected styles use `color`. -/
def ListModel.SetDelegate (l : ListModel) (color : String) : ListModel :=
  { l with delegateColor := color }

/-- `ResetFilter()`: back to the unfiltered state with an empty filter input. -/
def ListModel.ResetFilter (l : ListModel) : ListModel :=
  if l.filterState = FilterState.Unfiltered then l
  else { l with filterState := FilterState.Unfiltered, filterValue := "" }

/-- `SelectedItem()`: the highlighted entry, `none` when there is none. -/
def ListModel.SelectedItem (l : ListModel) : Option item :=
  l.items.get? l.cursor

/-- `list.Model.Update(msg)`: the component moves its cursor and edits its
filter; it leaves items, title, size, help flag and delegate alone. -/
def ListModel.Update (env : Env) (l : ListModel) (msg : Msg) : ListModel × Cmd :=
  let r := env.listUpdate l msg
  ({ l with cursor := r.cursor, filterState := r.filterState, filterValue := r.filterValue },
   r.cmd)

/-! ## The program's functions -/

/-- `toListItems`: the conversion to `[]list.Item` keeps the sequence. -/
def toListItems (items : List item) : List item :=
  items

/-- The drive letters tried by `getDrives`. -/
def driveLetters : List Char :=
  "CDEFGHIJKLMNOPQRSTUVWXYZ".toList

/-- `getDrives`: the roots `X:\` for which `os.Stat` succeeds, in letter order. -/
def getDrives (env : Env) : List item :=
  driveLetters.foldl
    (fun drives l =>
      let drive := String.singleton l ++ ":\\"
      if env.stat drive then drives ++ [{ Name := drive, IsDir := true, Path := drive }]
      else drives)
    []

/-- `listDirectory`: the entries of `path`, empty when reading fails. -/
def listDirectory (env : Env) (path : String) : List item :=
  match env.readDir path with
  | none => []
  | some entries =>
    entries.foldl
      (fun items e => items ++ [{ Name := e.Name, IsDir := e.IsDir, Path := env.join path e.Name }])
      []

/-- `openFile`: start the platform's opener on `path`. -/
def openFile (env : Env) (path : String) : List Effect :=
  if env.goos = "windows" then [Effect.exec "rundll32" ["url.dll,FileProtocolHandler", path]]
  else if env.goos = "darwin" then [Effect.exec "open" [path]]
  else [Effect.exec "xdg-open" [path]]

/-- `loadConfig`: the defaults when `config.json` cannot be read, otherwise
whatever `json.Unmarshal` leaves in a zero `Config`. -/
def loadConfig (env : Env) : Config :=
  match env.readFile "config.json" with
  | none => { BorderColor := "#FF69B4", HighlightColor := "#FF1493" }
  | some data => env.jsonUnmarshal data { BorderColor := "", HighlightColor := "" }

/-- `saveConfig`: write the indented JSON of `cfg` to `config.json`. -/
def saveConfig (env : Env) (cfg : Config) : List Effect :=
  [Effect.writeFile "config.json" (env.jsonMarshalIndent cfg)]

/-- `calculateMaxWidth`: the longest name, at least 20, plus 10. -/
def calculateMaxWidth (items : List item) : Int :=
  items.foldl
    (fun maxWidth it =>
      if (it.Name.utf8ByteSize : Int) > maxWidth then (it.Name.utf8ByteSize : Int) else maxWidth)
    20 + 10

/-- `initialModel`. -/
def initialModel (env : Env) : model :=
  let cfg := loadConfig env
  let items := getDrives env
  let maxWidth := calculateMaxWidth items
  let minWidthForHelp : Int := 80
  let maxWidth := if maxWidth < minWidthForHelp then minWidthForHelp else maxWidth
  let l := ListModel.New (toListItems items) cfg.HighlightColor maxWidth 30
  let l := l.SetSize maxWidth 30
  let l := { l with Title := "Select Drive =^..^=" }
  let l := l.SetShowHelp true
  { list := l
    currentDir := ""
    driveSelect := true
    drives := items
    width := 0
    height := 0
    showExtendedHelp := false
    borderColor := cfg.BorderColor
    highlightColor := cfg.HighlightColor
    paddingX := 2
    paddingY := 1
    maxItemWidth := maxWidth }

/-- The theme table of the `"t"` case, as (border, highlight) pairs. -/
def themes : List (String × String) :=
  [ ("#FF69B4", "#FF1493"),
    ("#00CED1", "#00FFFF"),
    ("#9370DB", "#BA55D3"),
    ("#FF6347", "#FF4500"),
    ("#32CD32", "#7FFF00"),
    ("#FFD700", "#FFA500"),
    ("#4169E1", "#1E90FF"),
    ("#FF1493", "#FF69B4"),
    ("#00FA9A", "#00FF7F"),
    ("#FF8C00", "#FF6347"),
    ("#8A2BE2", "#9400D3"),
    ("#DC143C", "#FF0000"),
    ("#00BFFF", "#87CEEB"),
    ("#ADFF2F", "#FFFF00"),
    ("#FF00FF", "#DA70D6") ]

/-- The lookup loop of the `"t"` case: `idx` starts at 0 and becomes the
position of the first theme whose border is `border`; `i` is the position of
the head of `ts`. -/
def themeIndexFrom (border : String) : List (String × String) → Nat → Nat
  | [], _ => 0
  | t :: ts, i => if t.1 = border then i else themeIndexFrom border ts (i + 1)

/-- The value of `idx` after the lookup loop. -/
def themeIndex (border : String) : Nat :=
  themeIndexFrom border themes 0

/-- What one call of `Update` yields: the returned model and command, and the
effects carried out during the call, in order. -/
structure UpdateResult where
  m : model
  cmd : Cmd
  effects : List Effect
  deriving DecidableEq, Repr

/-- The tail of `Update`: the message is forwarded to the list. -/
def forwardToList (env : Env) (m : model) (msg : Msg) : UpdateResult :=
  let r := m.list.Update env msg
  { m := { m with list := r.1 }, cmd := r.2, effects := [] }

/-- The `"enter"` case of `Update`. -/
def updateEnter (env : Env) (m : model) : UpdateResult :=
  if m.driveSelect then
    match m.list.SelectedItem with
    | some i =>
      let m := { m with currentDir := i.Path }
      let entries := listDirectory env i.Path
      let m := { m with maxItemWidth := calculateMaxWidth entries }
      let m := { m with list := m.list.SetItems (toListItems entries) }
      let m := { m with list := { m.list with Title := "Browsing " ++ m.currentDir } }
      let m := { m with driveSelect := false }
      let m := { m with list := m.list.ResetFilter }
      let contentHeight : Int := goInt (goInt (m.height - 6) - goInt (m.paddingY * 2))
      let m := { m with list := m.list.SetSize m.maxItemWidth contentHeight }
      { m := m, cmd := Cmd.nil, effects := [] }
    | none => { m := m, cmd := Cmd.nil, effects := [] }
  else
    match m.list.SelectedItem with
    | some i =>
      if i.IsDir then
        let entries := listDirectory env i.Path
        let m := { m with currentDir := i.Path }
        let m := { m with maxItemWidth := calculateMaxWidth entries }
        let m := { m with list := m.list.SetItems (toListItems entries) }
        let m := { m with list := { m.list with Title := "Browsing " ++ m.currentDir } }
        let m := { m with list := m.list.ResetFilter }
        let contentHeight : Int := goInt (goInt (m.height - 6) - goInt (m.paddingY * 2))
        let m := { m with list := m.list.SetSize m.maxItemWidth contentHeight }
        { m := m, cmd := Cmd.nil, effects := [] }
      else
        { m := m, cmd := Cmd.nil, effects := openFile env i.Path }
    | none => { m := m, cmd := Cmd.nil, effects := [] }

/-- The `"backspace"` case of `Update`. -/
def updateBackspace (env : Env) (m : model) : UpdateResult :=
  if !m.driveSelect then
    let parent := env.dir m.currentDir
    if parent = m.currentDir ∨ parent = "" ∨ (m.currentDir.utf8ByteSize : Int) ≤ 3 then
      let m := { m with maxItemWidth := calculateMaxWidth m.drives }
      let m := { m with list := m.list.SetItems (toListItems m.drives) }
      let m := { m with list := { m.list with Title := "Select Drive =^..^=" } }
      let m := { m with driveSelect := true }
      let m := { m with currentDir := "" }
      let m := { m with list := m.list.ResetFilter }
      let contentHeight : Int := goInt (goInt (m.height - 6) - goInt (m.paddingY * 2))
      let m := { m with list := m.list.SetSize m.maxItemWidth contentHeight }
      { m := m, cmd := Cmd.nil, effects := [] }
    else
      let entries := listDirectory env parent
      let m := { m with currentDir := parent }
      let m := { m with maxItemWidth := calculateMaxWidth entries }
      let m := { m with list := m.list.SetItems (toListItems entries) }
      let m := { m with list := { m.list with Title := "Browsing " ++ m.currentDir } }
      let m := { m with list := m.list.ResetFilter }
      let contentHeight : Int := goInt (goInt (m.height - 6) - goInt (m.paddingY * 2))
      let m := { m with list := m.list.SetSize m.maxItemWidth contentHeight }
      { m := m, cmd := Cmd.nil, effects := [] }
  else
    { m := m, cmd := Cmd.nil, effects := [] }

/-- The `"t"` case of `Update`. -/
def updateTheme (env : Env) (m : model) : UpdateResult :=
  let idx := themeIndex m.borderColor
  let idx := (idx + 1) % themes.length
  let t := themes.getD idx ("", "")
  let m := { m with borderColor := t.1 }
  let m := { m with highlightColor := t.2 }
  let m := { m with list := m.list.SetDelegate m.highlightColor }
  { m := m, cmd := Cmd.nil,
    effects := saveConfig env { BorderColor := m.borderColor, HighlightColor := m.highlightColor } }

/-- The `"o"` case of `Update`. -/
def updateReveal (env : Env) (m : model) : UpdateResult :=
  if !m.driveSelect then
    match m.list.SelectedItem with
    | some i =>
      let parentDir := if i.IsDir then i.Path else env.dir i.Path
      let opener :=
        if env.goos = "windows" then "explorer"
        else if env.goos = "darwin" then "open"
        else "xdg-open"
      { m := m, cmd := Cmd.nil, effects := [Effect.exec opener [parentDir]] }
    | none => { m := m, cmd := Cmd.nil, effects := [] }
  else
    { m := m, cmd := Cmd.nil, effects := [] }

/-- The method `model.Update`. -/
def model.Update (env : Env) (m : model) (msg : Msg) : UpdateResult :=
  match msg with
  | Msg.WindowSizeMsg w h =>
    let m := { m with width := w }
    let m := { m with height := h }
    let borderOverhead : Int := 6
    let contentHeight : Int := goInt (goInt (m.height - borderOverhead) - goInt (m.paddingY * 2))
    let contentHeight : Int := if contentHeight < 10 then 10 else contentHeight
    let m := { m with list := m.list.SetSize m.maxItemWidth contentHeight }
    forwardToList env m msg
  | Msg.KeyMsg s =>
    if s = "?" then
      let m := { m with showExtendedHelp := !m.showExtendedHelp }
      let m := { m with list := m.list.SetShowHelp (!m.showExtendedHelp) }
      forwardToList env m msg
    else if s = "ctrl+c" ∨ s = "q" then
      { m := m, cmd := Cmd.Quit, effects := [] }
    else if s = "enter" then updateEnter env m
    else if s = "backspace" then updateBackspace env m
    else if s = "t" then updateTheme env m
    else if s = "o" then updateReveal env m
    else forwardToList env m msg
  | Msg.other _ => forwardToList env m msg

/-! ## Vocabulary of the properties -/

/-- Joining a directory and a name with a backslash. -/
def winJoin (p n : String) : String :=
  if p.data.getLast? = some '\\' then p ++ n else p ++ "\\" ++ n

/-- The parent of a backslash-separated path; a drive root is its own parent. -/
def winDir (p : String) : String :=
  let d := (p.data.reverse.dropWhile (fun c => c != '\\')).reverse
  if d = [] then "."
  else if d.length > 3 then String.mk d.dropLast
  else String.mk d

/-- The directory tree of the example machine. -/
def winReadDir (p : String) : Option (List FileInfo) :=
  if p = "C:\\" then some [⟨"Docs", true⟩, ⟨"a.txt", false⟩]
  else if p = "C:\\Docs" then some [⟨"notes", true⟩]
  else if p = "C:\\Docs\\notes" then some []
  else none

/-- A list component that moves its highlight on `"down"` and `"up"`. -/
def winListUpdate (l : ListModel) (msg : Msg) : ListReaction :=
  match msg with
  | Msg.KeyMsg s =>
    if s = "down" then ⟨l.cursor + 1, l.filterState, l.filterValue, Cmd.nil⟩
    else if s = "up" then ⟨l.cursor - 1, l.filterState, l.filterValue, Cmd.nil⟩
    else ⟨l.cursor, l.filterState, l.filterValue, Cmd.nil⟩
  | _ => ⟨l.cursor, l.filterState, l.filterValue, Cmd.nil⟩

/-- The example machine. -/
def winEnv : Env :=
  { stat := fun p => p = "C:\\"
    readDir := winReadDir
    join := winJoin
    dir := winDir
    readFile := fun _ => none
    jsonUnmarshal := fun _ cfg => cfg
    jsonMarshalIndent := fun cfg =>
      "\x7b\n  \"border_color\": \"" ++ cfg.BorderColor ++ "\",\n  \"highlight_color\": \""
        ++ cfg.HighlightColor ++ "\"\n\x7d"
    goos := "windows"
    listUpdate := winListUpdate }

/-- The example machine with a hand-edited `config.json` whose colours are
not in the theme table. -/
def editedEnv : Env :=
  { winEnv with
    readFile := fun p =>
      if p = "config.json" then
        some "\x7b\"border_color\": \"#123456\", \"highlight_color\": \"#654321\"\x7d"
      else none
    jsonUnmarshal := fun data cfg =>
      if data = "\x7b\"border_color\": \"#123456\", \"highlight_color\": \"#654321\"\x7d" then
        { BorderColor := "#123456", HighlightColor := "#654321" }
      else cfg }

/-- The root item built by `getDrives` for the letter `l`. -/
def driveItem (l : Char) : item :=
  { Name := String.singleton l ++ ":\\", IsDir := true, Path := String.singleton l ++ ":\\" }

/-- The states the program can be in: the initial model and whatever `Update`
returns from a state it can be in, for any message. -/
inductive Reachable (env : Env) : model → Prop where
  | init : Reachable env (initialModel env)
  | step (m : model) (msg : Msg) : Reachable env m → Reachable env (m.Update env msg).m

/-- The condition under which `"backspace"` leaves for the drive selection. -/
def atTop (env : Env) (m : model) : Prop :=
  env.dir m.currentDir = m.currentDir ∨ env.dir m.currentDir = "" ∨
    (m.currentDir.utf8ByteSize : Int) ≤ 3

/-- The list after a change of directory: new items and title, filter reset,
size recomputed from the new items and the stored terminal height. -/
def navList (m : model) (entries : List item) (title : String) : ListModel :=
  ({ m.list.SetItems (toListItems entries) with Title := title }).ResetFilter.SetSize
    (calculateMaxWidth entries) (goInt (goInt (m.height - 6) - goInt (m.paddingY * 2)))

/-- The model after entering the directory at `path`. -/
def entered (env : Env) (m : model) (path : String) : model :=
  { m with
    currentDir := path
    maxItemWidth := calculateMaxWidth (listDirectory env path)
    driveSelect := false
    list := navList m (listDirectory env path) ("Browsing " ++ path) }

/-- The model after going back to the drive selection. -/
def backToDrives (m : model) : model :=
  { m with
    currentDir := ""
    maxItemWidth := calculateMaxWidth m.drives
    driveSelect := true
    list := navList m m.drives "Select Drive =^..^=" }

/-- The message left the mode, the path, the roots and the entries shown as
they were. -/
def SameNav (m r : model) : Prop :=
  r.currentDir = m.currentDir ∧ r.driveSelect = m.driveSelect ∧ r.drives = m.drives ∧
    r.list.items = m.list.items ∧ r.list.Title = m.list.Title

/-- The entries shown agree with the mode and the path. -/
def Consistent (env : Env) (m : model) : Prop :=
  m.drives = getDrives env ∧
  (m.driveSelect = true → m.list.items = m.drives) ∧
  (m.driveSelect = false → m.list.items = listDirectory env m.currentDir)

/-- The model with the list's highlight moved to position `c`: the state of
the list component when the next key arrives is whatever the user made it. -/
def select (m : model) (c : Nat) : model :=
  { m with list := { m.list with cursor := c } }

/-- An Activate event on `m` enters a root or a directory: something is
selected, and in browsing mode it is a directory. -/
def entersDirectory (m : model) : Bool :=
  match m.list.SelectedItem with
  | some i => m.driveSelect || i.IsDir
  | none => false

/-- One Activate event (key `"enter"`) with the highlight at position `c`. -/
def activate (env : Env) (m : model) (c : Nat) : model :=
  ((select m c).Update env (Msg.KeyMsg "enter")).m

/-- One GoToParent event (key `"backspace"`). -/
def goToParent (env : Env) (m : model) : model :=
  (m.Update env (Msg.KeyMsg "backspace")).m

/-- A run of Activate events, one for each highlight position of `cs`. -/
def activations (env : Env) : model → List Nat → model
  | m, [] => m
  | m, c :: cs => activations env (activate env m c) cs

/-- Every Activate event of the run enters a root or a directory. -/
def EachEnters (env : Env) : model → List Nat → Prop
  | _, [] => True
  | m, c :: cs => entersDirectory (select m c) = true ∧ EachEnters env (activate env m c) cs

/-- A run of `n` GoToParent events. -/
def goToParents (env : Env) : model → Nat → model
  | m, 0 => m
  | m, n + 1 => goToParents env (goToParent env m) n

/-- The paths the browser can show: the roots, and the directories listed in
a path it can show. -/
inductive Browsable (env : Env) : String → Prop where
  | root (d : item) : d ∈ getDrives env → Browsable env d.Path
  | child (p : String) (e : item) :
      Browsable env p → e ∈ listDirectory env p → e.IsDir = true → Browsable env e.Path

/-- Within `k` steps of `filepath.Dir` from `p` there is a path of at most
three bytes, counting `p` itself as the first. -/
def ClimbsIn (env : Env) : Nat → String → Prop
  | 0, _ => False
  | k + 1, p => (p.utf8ByteSize : Int) ≤ 3 ∨ ClimbsIn env k (env.dir p)

/-- A browsing state reached by descending from a root: the entries shown are
those of the current path, which is at most `k` levels below a root. -/
def Deep (env : Env) (k : Nat) (m : model) : Prop :=
  m.driveSelect = false ∧ Consistent env m ∧ Browsable env m.currentDir ∧
    ClimbsIn env k m.currentDir

/-- The current path is empty exactly in the drive selection, on top of the
agreement of entries, mode and path. -/
def ModePath (env : Env) (m : model) : Prop :=
  Consistent env m ∧ (m.currentDir = "" ↔ m.driveSelect = true)

/-- The model after a sequence of messages, each handled by `Update`. -/
def run (env : Env) (m : model) (msgs : List Msg) : model :=
  msgs.foldl (fun m msg => (m.Update env msg).m) m

/-- The colour pair of a model. -/
def themePair (m : model) : String × String :=
  (m.borderColor, m.highlightColor)

/-- One CycleTheme event (key `"t"`). -/
def cycleTheme (env : Env) (m : model) : model :=
  (m.Update env (Msg.KeyMsg "t")).m

/-- A run of `n` CycleTheme events. -/
def cycleThemes (env : Env) : model → Nat → model
  | m, 0 => m
  | m, n + 1 => cycleThemes env (cycleTheme env m) n

/-- The pair the `"t"` case moves to from the pair `p`. -/
def nextTheme (p : String × String) : String × String :=
  themes.getD ((themeIndex p.1 + 1) % themes.length) ("", "")

/-- The example machine with a drive `C:\` that exists but cannot be read. -/
def lockedEnv : Env :=
  { winEnv with readDir := fun _ => none }

/-- The example machine with a `config.json` that is not JSON: `json.Unmarshal`
reports a syntax error and leaves the struct as it was. -/
def brokenEnv : Env :=
  { winEnv with
    readFile := fun p => if p = "config.json" then some "not json" else none
    jsonUnmarshal := fun _ cfg => cfg }

/-- The index the theme cycle starts from, in the words of the specification:
the position of the first registry entry whose border colour is `border`, or
0 when there is none. -/
def firstBorderIndex (border : String) : Nat :=
  (themes.findIdx? (fun t => t.1 == border)).getD 0

/-! ## Theorems -/

theorem foldl_append_singleton {α β : Type} (f : α → β) (xs : List α) (acc : List β) :
    xs.foldl (fun items e => items ++ [f e]) acc = acc ++ xs.map f := by
  induction xs generalizing acc with
  | nil => simp
  | cons x xs ih => simp [ih]

theorem listDirectory_eq_map (env : Env) (path : String) (entries : List FileInfo)
    (h : env.readDir path = some entries) :
    listDirectory env path
      = entries.map (fun e => { Name := e.Name, IsDir := e.IsDir, Path := env.join path e.Name }) := by
  unfold listDirectory
  rw [h]
  simpa using foldl_append_singleton
    (fun e : FileInfo => ({ Name := e.Name, IsDir := e.IsDir, Path := env.join path e.Name } : item))
    entries []

theorem mem_listDirectory {env : Env} {path : String} {e : item}
    (h : e ∈ listDirectory env path) :
    ∃ entries fi, env.readDir path = some entries ∧ fi ∈ entries ∧
      e = { Name := fi.Name, IsDir := fi.IsDir, Path := env.join path fi.Name } := by
  cases hr : env.readDir path with
  | none => simp [listDirectory, hr] at h
  | some entries =>
    rw [listDirectory_eq_map env path entries hr] at h
    obtain ⟨fi, hfi, rfl⟩ := List.mem_map.mp h
    exact ⟨entries, fi, rfl, hfi, rfl⟩

theorem getDrives_foldl (env : Env) (ls : List Char) (acc : List item) :
    ls.foldl
      (fun drives l =>
        let drive := String.singleton l ++ ":\\"
        if env.stat drive then drives ++ [{ Name := drive, IsDir := true, Path := drive }]
        else drives) acc
      = acc ++ (ls.filter (fun l => env.stat (String.singleton l ++ ":\\"))).map driveItem := by
  induction ls generalizing acc with
  | nil => simp
  | cons l ls ih =>
    simp only [List.foldl_cons, ih, List.filter_cons]
    by_cases hs : env.stat (String.singleton l ++ ":\\") = true
    · simp [hs, driveItem]
    · simp [hs]

theorem mem_getDrives {env : Env} {d : item} (h : d ∈ getDrives env) :
    ∃ l, l ∈ driveLetters ∧ d = driveItem l := by
  unfold getDrives at h
  rw [getDrives_foldl] at h
  simp only [List.nil_append, List.mem_map, List.mem_filter] at h
  obtain ⟨l, ⟨hl, _⟩, rfl⟩ := h
  exact ⟨l, hl, rfl⟩

theorem driveItem_path_size : ∀ l ∈ driveLetters, (driveItem l).Path.utf8ByteSize = 3 := by
  decide

theorem driveItem_path_ne_empty : ∀ l ∈ driveLetters, (driveItem l).Path ≠ "" := by
  decide

theorem selectedItem_mem {l : ListModel} {e : item} (h : l.SelectedItem = some e) :
    e ∈ l.items := by
  unfold ListModel.SelectedItem at h
  exact List.get?_mem h

theorem resetFilter_items (l : ListModel) : l.ResetFilter.items = l.items := by
  unfold ListModel.ResetFilter
  split <;> rfl

theorem resetFilter_title (l : ListModel) : l.ResetFilter.Title = l.Title := by
  unfold ListModel.ResetFilter
  split <;> rfl

theorem resetFilter_filterState (l : ListModel) :
    l.ResetFilter.filterState = FilterState.Unfiltered := by
  unfold ListModel.ResetFilter
  split
  · assumption
  · rfl

theorem navList_items (m : model) (entries : List item) (title : String) :
    (navList m entries title).items = entries := by
  simp [navList, ListModel.SetSize, ListModel.SetItems, resetFilter_items, toListItems]

theorem navList_title (m : model) (entries : List item) (title : String) :
    (navList m entries title).Title = title := by
  simp [navList, ListModel.SetSize, ListModel.SetItems, resetFilter_title]

theorem navList_filterState (m : model) (entries : List item) (title : String) :
    (navList m entries title).filterState = FilterState.Unfiltered := by
  simp [navList, ListModel.SetSize, resetFilter_filterState]

theorem navList_width (m : model) (entries : List item) (title : String) :
    (navList m entries title).width = calculateMaxWidth entries := by
  simp [navList, ListModel.SetSize]

theorem navList_height (m : model) (entries : List item) (title : String) :
    (navList m entries title).height
      = goInt (goInt (m.height - 6) - goInt (m.paddingY * 2)) := by
  simp [navList, ListModel.SetSize]

theorem updateEnter_drive (env : Env) (m : model) (i : item)
    (hds : m.driveSelect = true) (hsel : m.list.SelectedItem = some i) :
    updateEnter env m = { m := entered env m i.Path, cmd := Cmd.nil, effects := [] } := by
  unfold updateEnter
  rw [if_pos hds, hsel]
  rfl

theorem updateEnter_dir (env : Env) (m : model) (i : item)
    (hds : m.driveSelect = false) (hsel : m.list.SelectedItem = some i) (hdir : i.IsDir = true) :
    updateEnter env m = { m := entered env m i.Path, cmd := Cmd.nil, effects := [] } := by
  unfold updateEnter
  rw [if_neg (by simp [hds]), hsel]
  simp only [hdir, if_true]
  cases m
  simp only at hds
  subst hds
  rfl

theorem updateEnter_file (env : Env) (m : model) (i : item)
    (hds : m.driveSelect = false) (hsel : m.list.SelectedItem = some i) (hdir : i.IsDir = false) :
    updateEnter env m = { m := m, cmd := Cmd.nil, effects := openFile env i.Path } := by
  unfold updateEnter
  rw [if_neg (by simp [hds]), hsel]
  simp [hdir]

theorem updateEnter_none (env : Env) (m : model) (hsel : m.list.SelectedItem = none) :
    updateEnter env m = { m := m, cmd := Cmd.nil, effects := [] } := by
  unfold updateEnter
  rw [hsel]
  simp

theorem updateBackspace_drives (env : Env) (m : model) (hds : m.driveSelect = true) :
    updateBackspace env m = { m := m, cmd := Cmd.nil, effects := [] } := by
  unfold updateBackspace
  simp [hds]

theorem updateBackspace_top (env : Env) (m : model) (hds : m.driveSelect = false)
    (htop : atTop env m) :
    updateBackspace env m = { m := backToDrives m, cmd := Cmd.nil, effects := [] } := by
  unfold updateBackspace
  unfold atTop at htop
  simp only [hds, Bool.not_false, if_true]
  rw [if_pos htop]
  rfl

theorem updateBackspace_parent (env : Env) (m : model) (hds : m.driveSelect = false)
    (htop : ¬ atTop env m) :
    updateBackspace env m
      = { m := entered env m (env.dir m.currentDir), cmd := Cmd.nil, effects := [] } := by
  unfold updateBackspace
  unfold atTop at htop
  simp only [hds, Bool.not_false, if_true]
  rw [if_neg htop]
  cases m
  simp only at hds
  subst hds
  rfl

theorem update_enter (env : Env) (m : model) :
    m.Update env (Msg.KeyMsg "enter") = updateEnter env m := by
  simp [model.Update]

theorem update_backspace (env : Env) (m : model) :
    m.Update env (Msg.KeyMsg "backspace") = updateBackspace env m := by
  simp [model.Update]

theorem update_t (env : Env) (m : model) :
    m.Update env (Msg.KeyMsg "t") = updateTheme env m := by
  simp [model.Update]

theorem SameNav.refl (m : model) : SameNav m m :=
  ⟨rfl, rfl, rfl, rfl, rfl⟩

theorem forwardToList_sameNav (env : Env) (m : model) (msg : Msg) :
    SameNav m (forwardToList env m msg).m :=
  ⟨rfl, rfl, rfl, rfl, rfl⟩

theorem updateTheme_sameNav (env : Env) (m : model) : SameNav m (updateTheme env m).m :=
  ⟨rfl, rfl, rfl, rfl, rfl⟩

theorem updateReveal_m (env : Env) (m : model) : (updateReveal env m).m = m := by
  unfold updateReveal
  cases m.list.SelectedItem <;> simp only [] <;> split_ifs <;> rfl

/-- What a call of `Update` does to the navigation state: it enters the
selected root or directory, or it goes back to the drive selection, or it
moves to the parent directory, or it leaves the navigation state alone. -/
theorem update_nav_cases (env : Env) (m : model) (msg : Msg) :
    (∃ i, m.list.SelectedItem = some i ∧ (m.driveSelect = true ∨ i.IsDir = true) ∧
        (m.Update env msg).m = entered env m i.Path) ∨
    (m.driveSelect = false ∧ atTop env m ∧ (m.Update env msg).m = backToDrives m) ∨
    (m.driveSelect = false ∧ ¬ atTop env m ∧
        (m.Update env msg).m = entered env m (env.dir m.currentDir)) ∨
    SameNav m (m.Update env msg).m := by
  cases msg with
  | WindowSizeMsg w h =>
    exact Or.inr (Or.inr (Or.inr ⟨rfl, rfl, rfl, rfl, rfl⟩))
  | other tag =>
    exact Or.inr (Or.inr (Or.inr ⟨rfl, rfl, rfl, rfl, rfl⟩))
  | KeyMsg s =>
    unfold model.Update
    simp only
    split_ifs with h1 h2 h3 h4 h5 h6
    · exact Or.inr (Or.inr (Or.inr ⟨rfl, rfl, rfl, rfl, rfl⟩))
    · exact Or.inr (Or.inr (Or.inr (SameNav.refl m)))
    · cases hsel : m.list.SelectedItem with
      | none =>
        rw [updateEnter_none env m hsel]
        exact Or.inr (Or.inr (Or.inr (SameNav.refl m)))
      | some i =>
        cases hds : m.driveSelect with
        | true =>
          rw [updateEnter_drive env m i hds hsel]
          exact Or.inl ⟨i, rfl, Or.inl rfl, rfl⟩
        | false =>
          cases hdir : i.IsDir with
          | true =>
            rw [updateEnter_dir env m i hds hsel hdir]
            exact Or.inl ⟨i, rfl, Or.inr hdir, rfl⟩
          | false =>
            rw [updateEnter_file env m i hds hsel hdir]
            exact Or.inr (Or.inr (Or.inr (SameNav.refl m)))
    · cases hds : m.driveSelect with
      | true =>
        rw [updateBackspace_drives env m hds]
        exact Or.inr (Or.inr (Or.inr (SameNav.refl m)))
      | false =>
        by_cases htop : atTop env m
        · rw [updateBackspace_top env m hds htop]
          exact Or.inr (Or.inl ⟨rfl, htop, rfl⟩)
        · rw [updateBackspace_parent env m hds htop]
          exact Or.inr (Or.inr (Or.inl ⟨rfl, htop, rfl⟩))
    · exact Or.inr (Or.inr (Or.inr (updateTheme_sameNav env m)))
    · rw [updateReveal_m]
      exact Or.inr (Or.inr (Or.inr (SameNav.refl m)))
    · exact Or.inr (Or.inr (Or.inr (forwardToList_sameNav env m _)))

theorem consistent_init (env : Env) : Consistent env (initialModel env) := by
  simp [Consistent, initialModel, ListModel.New, ListModel.SetSize, ListModel.SetShowHelp,
    toListItems]

theorem consistent_entered (env : Env) (m : model) (path : String)
    (h : m.drives = getDrives env) : Consistent env (entered env m path) := by
  refine ⟨h, ?_, ?_⟩
  · intro hc
    simp [entered] at hc
  · intro _
    exact navList_items _ _ _

theorem consistent_backToDrives (env : Env) (m : model)
    (h : m.drives = getDrives env) : Consistent env (backToDrives m) := by
  refine ⟨h, ?_, ?_⟩
  · intro _
    exact navList_items _ _ _
  · intro hc
    simp [backToDrives] at hc

theorem consistent_sameNav (env : Env) (m r : model) (h : Consistent env m)
    (hs : SameNav m r) : Consistent env r := by
  obtain ⟨hcd, hds, hdr, hit, _⟩ := hs
  obtain ⟨h1, h2, h3⟩ := h
  refine ⟨by rw [hdr, h1], ?_, ?_⟩
  · intro hc
    rw [hit, hdr]
    exact h2 (by rw [← hds]; exact hc)
  · intro hc
    rw [hit, hcd]
    exact h3 (by rw [← hds]; exact hc)

theorem consistent_step (env : Env) (m : model) (msg : Msg) (h : Consistent env m) :
    Consistent env (m.Update env msg).m := by
  rcases update_nav_cases env m msg with ⟨i, _, _, he⟩ | ⟨_, _, he⟩ | ⟨_, _, he⟩ | hs
  · rw [he]
    exact consistent_entered env m i.Path h.1
  · rw [he]
    exact consistent_backToDrives env m h.1
  · rw [he]
    exact consistent_entered env m _ h.1
  · exact consistent_sameNav env m _ h hs

theorem consistent_of_reachable (env : Env) (m : model) (h : Reachable env m) :
    Consistent env m := by
  induction h with
  | init => exact consistent_init env
  | step m msg _ ih => exact consistent_step env m msg ih

theorem goToParent_eq (env : Env) (m : model) :
    goToParent env m = (updateBackspace env m).m := by
  unfold goToParent
  rw [update_backspace]

theorem goToParents_driveSelect (env : Env) (n : Nat) (m : model) (h : m.driveSelect = true) :
    goToParents env m n = m := by
  induction n with
  | zero => rfl
  | succ n ih =>
    show goToParents env (goToParent env m) n = m
    rw [goToParent_eq, updateBackspace_drives env m h]
    exact ih

theorem goToParents_climb (env : Env) (k : Nat) (m : model) (hds : m.driveSelect = false)
    (hc : ClimbsIn env k m.currentDir) :
    (goToParents env m k).driveSelect = true ∧ (goToParents env m k).currentDir = "" ∧
      (goToParents env m k).list.items = m.drives := by
  induction k generalizing m with
  | zero => exact hc.elim
  | succ k ih =>
    show (goToParents env (goToParent env m) k).driveSelect = true ∧
      (goToParents env (goToParent env m) k).currentDir = "" ∧
      (goToParents env (goToParent env m) k).list.items = m.drives
    rw [goToParent_eq]
    by_cases htop : atTop env m
    · rw [updateBackspace_top env m hds htop]
      rw [goToParents_driveSelect env k (backToDrives m) rfl]
      exact ⟨rfl, rfl, navList_items _ _ _⟩
    · rw [updateBackspace_parent env m hds htop]
      have hlen : ¬ (m.currentDir.utf8ByteSize : Int) ≤ 3 := fun h => htop (Or.inr (Or.inr h))
      have hc2 : ClimbsIn env k (env.dir m.currentDir) := hc.resolve_left hlen
      exact ih (entered env m (env.dir m.currentDir)) rfl hc2

theorem entersDirectory_selected {m : model} (h : entersDirectory m = true) :
    ∃ i, m.list.SelectedItem = some i ∧ (m.driveSelect = true ∨ i.IsDir = true) := by
  unfold entersDirectory at h
  cases hsel : m.list.SelectedItem with
  | none => simp [hsel] at h
  | some i =>
    rw [hsel] at h
    exact ⟨i, rfl, by simpa using h⟩

theorem activate_of_enters (env : Env) (m : model) (c : Nat)
    (h : entersDirectory (select m c) = true) :
    ∃ i, (select m c).list.SelectedItem = some i ∧ (m.driveSelect = true ∨ i.IsDir = true) ∧
      activate env m c = entered env (select m c) i.Path := by
  obtain ⟨i, hsel, hk⟩ := entersDirectory_selected h
  refine ⟨i, hsel, hk, ?_⟩
  unfold activate
  rw [update_enter]
  cases hds : m.driveSelect with
  | true => rw [updateEnter_drive env (select m c) i hds hsel]
  | false =>
    have hdir : i.IsDir = true := by
      rcases hk with hk | hk
      · exact absurd (hk.symm.trans hds) (by decide)
      · exact hk
    rw [updateEnter_dir env (select m c) i hds hsel hdir]

theorem activations_deep (env : Env)
    (hdir : ∀ p, Browsable env p → ∀ e ∈ listDirectory env p, e.IsDir = true → env.dir e.Path = p)
    (cs : List Nat) (k : Nat) (m : model) (hm : Deep env k m) (he : EachEnters env m cs) :
    Deep env (k + cs.length) (activations env m cs) := by
  induction cs generalizing k m with
  | nil => exact hm
  | cons c cs ih =>
    obtain ⟨hds, hcons, hbr, hcl⟩ := hm
    obtain ⟨hen, hrest⟩ := he
    obtain ⟨i, hsel, hk, hact⟩ := activate_of_enters env m c hen
    have hisdir : i.IsDir = true := by
      rcases hk with hk | hk
      · exact absurd (hk.symm.trans hds) (by decide)
      · exact hk
    have hmem : i ∈ listDirectory env m.currentDir := by
      have h1 : i ∈ (select m c).list.items := selectedItem_mem hsel
      have h2 : (select m c).list.items = m.list.items := rfl
      rw [h2, hcons.2.2 hds] at h1
      exact h1
    have hnext : Deep env (k + 1) (activate env m c) := by
      rw [hact]
      refine ⟨rfl, consistent_entered env (select m c) i.Path hcons.1, ?_, ?_⟩
      · exact Browsable.child m.currentDir i hbr hmem hisdir
      · refine Or.inr ?_
        show ClimbsIn env k (env.dir i.Path)
        rw [hdir m.currentDir hbr i hmem hisdir]
        exact hcl
    have := ih (k + 1) (activate env m c) hnext hrest
    simpa [activations, Nat.add_assoc, Nat.add_comm 1] using this

theorem mem_winListing {p : String} {e : item} (h : e ∈ listDirectory winEnv p) :
    (p = "C:\\" ∧ (e = ⟨"Docs", true, "C:\\Docs"⟩ ∨ e = ⟨"a.txt", false, "C:\\a.txt"⟩)) ∨
    (p = "C:\\Docs" ∧ e = ⟨"notes", true, "C:\\Docs\\notes"⟩) := by
  obtain ⟨entries, fi, hr, hfi, rfl⟩ := mem_listDirectory h
  change winReadDir p = some entries at hr
  unfold winReadDir at hr
  split_ifs at hr with h1 h2 h3
  · subst h1
    simp only [Option.some.injEq] at hr
    subst hr
    simp only [List.mem_cons, List.mem_singleton, List.not_mem_nil, or_false] at hfi
    rcases hfi with rfl | rfl
    · exact Or.inl ⟨rfl, Or.inl (by decide)⟩
    · exact Or.inl ⟨rfl, Or.inr (by decide)⟩
  · subst h2
    simp only [Option.some.injEq] at hr
    subst hr
    simp only [List.mem_singleton] at hfi
    subst hfi
    exact Or.inr ⟨rfl, by decide⟩
  · simp only [Option.some.injEq] at hr
    subst hr
    simp at hfi

theorem winEnv_dir_listed :
    ∀ p, Browsable winEnv p → ∀ e ∈ listDirectory winEnv p, e.IsDir = true →
      winEnv.dir e.Path = p := by
  intro p _ e he _
  rcases mem_winListing he with ⟨rfl, rfl | rfl⟩ | ⟨rfl, rfl⟩ <;> decide

theorem winEnv_paths_nonempty : ∀ p, ∀ e ∈ listDirectory winEnv p, e.Path ≠ "" := by
  intro p e he
  rcases mem_winListing he with ⟨rfl, rfl | rfl⟩ | ⟨rfl, rfl⟩ <;> decide

/-- C1 (path round trip): start from the initial model and let any number of
Activate events each enter a root or a directory, wherever the highlight
stands; the same number of GoToParent events then ends in the drive
selection with an empty current path and the original roots in the list.
The only fact used of `filepath.Dir` and `filepath.Join` is that the parent
of a directory listed in a path the browser shows is that path. -/
theorem path_round_trip (env : Env)
    (hdir : ∀ p, Browsable env p → ∀ e ∈ listDirectory env p, e.IsDir = true →
      env.dir e.Path = p)
    (cs : List Nat) (he : EachEnters env (initialModel env) cs) :
    (goToParents env (activations env (initialModel env) cs) cs.length).driveSelect = true ∧
    (goToParents env (activations env (initialModel env) cs) cs.length).currentDir = "" ∧
    (goToParents env (activations env (initialModel env) cs) cs.length).list.items
      = (initialModel env).drives := by
  cases cs with
  | nil => exact ⟨rfl, rfl, rfl⟩
  | cons c cs =>
    obtain ⟨hen, hrest⟩ := he
    obtain ⟨i, hsel, _, hact⟩ := activate_of_enters env (initialModel env) c hen
    have hmem : i ∈ getDrives env := selectedItem_mem hsel
    obtain ⟨l, hl, rfl⟩ := mem_getDrives hmem
    have hfirst : Deep env 1 (activate env (initialModel env) c) := by
      rw [hact]
      refine ⟨rfl, consistent_entered env _ _ rfl, Browsable.root _ hmem, Or.inl ?_⟩
      show (((driveItem l).Path.utf8ByteSize : Nat) : Int) ≤ 3
      rw [driveItem_path_size l hl]
      decide
    have hdeep := activations_deep env hdir cs 1 _ hfirst hrest
    have hlen : (c :: cs).length = 1 + cs.length := by simp [Nat.add_comm]
    rw [hlen]
    show (goToParents env (activations env (activate env (initialModel env) c) cs)
        (1 + cs.length)).driveSelect = true ∧ _
    obtain ⟨h1, h2, h3⟩ := goToParents_climb env (1 + cs.length) _ hdeep.1 hdeep.2.2.2
    exact ⟨h1, h2, h3.trans hdeep.2.1.1⟩

/-- C1 at the example machine: enter `C:\`, `C:\Docs` and `C:\Docs\notes`,
then go up three times. -/
theorem path_round_trip_witness :
    EachEnters winEnv (initialModel winEnv) [0, 0, 0] ∧
    (goToParents winEnv (activations winEnv (initialModel winEnv) [0, 0, 0]) 3).driveSelect
      = true ∧
    (goToParents winEnv (activations winEnv (initialModel winEnv) [0, 0, 0]) 3).currentDir
      = "" ∧
    (goToParents winEnv (activations winEnv (initialModel winEnv) [0, 0, 0]) 3).list.items
      = (initialModel winEnv).drives :=
  ⟨⟨by decide, by decide, by decide, trivial⟩,
    path_round_trip winEnv winEnv_dir_listed [0, 0, 0] ⟨by decide, by decide, by decide, trivial⟩⟩

theorem modePath_step (env : Env) (hpath : ∀ p, ∀ e ∈ listDirectory env p, e.Path ≠ "")
    (m : model) (msg : Msg) (h : ModePath env m) : ModePath env (m.Update env msg).m := by
  refine ⟨consistent_step env m msg h.1, ?_⟩
  obtain ⟨⟨hdr, hroots, hlisted⟩, hiff⟩ := h
  rcases update_nav_cases env m msg with ⟨i, hsel, _, he⟩ | ⟨_, _, he⟩ | ⟨_, htop, he⟩ | hs
  · rw [he]
    have hne : i.Path ≠ "" := by
      have hmem : i ∈ m.list.items := selectedItem_mem hsel
      cases hds : m.driveSelect with
      | true =>
        rw [hroots hds, hdr] at hmem
        obtain ⟨l, hl, rfl⟩ := mem_getDrives hmem
        exact driveItem_path_ne_empty l hl
      | false =>
        rw [hlisted hds] at hmem
        exact hpath _ i hmem
    show i.Path = "" ↔ false = true
    simp [hne]
  · rw [he]
    exact ⟨fun _ => rfl, fun _ => rfl⟩
  · rw [he]
    have hne : env.dir m.currentDir ≠ "" := fun h0 => htop (Or.inr (Or.inl h0))
    show env.dir m.currentDir = "" ↔ false = true
    simp [hne]
  · obtain ⟨hcd, hds, _, _, _⟩ := hs
    rw [hcd, hds]
    exact hiff

theorem modePath_of_reachable (env : Env)
    (hpath : ∀ p, ∀ e ∈ listDirectory env p, e.Path ≠ "")
    (m : model) (h : Reachable env m) : ModePath env m := by
  induction h with
  | init => exact ⟨consistent_init env, ⟨fun _ => rfl, fun _ => rfl⟩⟩
  | step m msg _ ih => exact modePath_step env hpath m msg ih

theorem reachable_run (env : Env) (m : model) (msgs : List Msg) (h : Reachable env m) :
    Reachable env (run env m msgs) := by
  induction msgs generalizing m with
  | nil => exact h
  | cons msg msgs ih => exact ih _ (Reachable.step m msg h)

/-- C2 (mode/path invariant): in every state reachable from the initial model
the current path is empty if and only if the model is in the drive
selection, given that every listed entry has a non-empty path.  The roots
have non-empty paths by construction, and an empty `filepath.Dir` result is
caught by the boundary rule, so neither needs to be assumed. -/
theorem currentDir_empty_iff_driveSelect (env : Env)
    (hpath : ∀ p, ∀ e ∈ listDirectory env p, e.Path ≠ "")
    (m : model) (h : Reachable env m) :
    m.currentDir = "" ↔ m.driveSelect = true :=
  (modePath_of_reachable env hpath m h).2

/-- C2 at the example machine, after entering `C:\` and then `C:\Docs`. -/
theorem currentDir_empty_iff_driveSelect_witness :
    (∀ p, ∀ e ∈ listDirectory winEnv p, e.Path ≠ "") ∧
    Reachable winEnv (run winEnv (initialModel winEnv) [Msg.KeyMsg "enter", Msg.KeyMsg "enter"]) ∧
    ((run winEnv (initialModel winEnv) [Msg.KeyMsg "enter", Msg.KeyMsg "enter"]).currentDir = "" ↔
      (run winEnv (initialModel winEnv) [Msg.KeyMsg "enter", Msg.KeyMsg "enter"]).driveSelect
        = true) :=
  ⟨winEnv_paths_nonempty, reachable_run winEnv _ _ Reachable.init,
   currentDir_empty_iff_driveSelect winEnv winEnv_paths_nonempty _
     (reachable_run winEnv _ _ Reachable.init)⟩

/-- C3 (entries are never stale): in every state reachable from the initial
model, in browsing mode the list holds exactly `listDirectory` of the current
path, and in the drive selection it holds exactly the roots.  The filesystem
is the one of the environment, the same for the whole session. -/
theorem entries_never_stale (env : Env) (m : model) (h : Reachable env m) :
    (m.driveSelect = false → m.list.items = listDirectory env m.currentDir) ∧
    (m.driveSelect = true → m.list.items = m.drives) :=
  ⟨(consistent_of_reachable env m h).2.2, (consistent_of_reachable env m h).2.1⟩

/-- C3 at the example machine, after entering `C:\`, moving the highlight
and going back up. -/
theorem entries_never_stale_witness :
    Reachable winEnv
      (run winEnv (initialModel winEnv)
        [Msg.KeyMsg "enter", Msg.KeyMsg "down", Msg.KeyMsg "backspace"]) ∧
    (run winEnv (initialModel winEnv) [Msg.KeyMsg "enter"]).list.items
      = listDirectory winEnv "C:\\" ∧
    (run winEnv (initialModel winEnv)
        [Msg.KeyMsg "enter", Msg.KeyMsg "down", Msg.KeyMsg "backspace"]).list.items
      = [⟨"C:\\", true, "C:\\"⟩] :=
  ⟨reachable_run winEnv _ _ Reachable.init,
   (entries_never_stale winEnv _
     (reachable_run winEnv (initialModel winEnv) [Msg.KeyMsg "enter"] Reachable.init)).1
       (by decide),
   by decide⟩

/-- C4 (list width minimum), at the example machine: the initial model gives
the list the help-bar minimum of 80 columns, but entering `C:\` (longest name
`a.txt`) sets the width to 30, and going back to the drive selection leaves
it at 30 for the very roots that had 80 at the start. -/
theorem width_below_help_minimum :
    Reachable winEnv (run winEnv (initialModel winEnv) [Msg.KeyMsg "enter"]) ∧
    (initialModel winEnv).list.width = 80 ∧
    (run winEnv (initialModel winEnv) [Msg.KeyMsg "enter"]).maxItemWidth = 30 ∧
    (run winEnv (initialModel winEnv) [Msg.KeyMsg "enter"]).list.width = 30 ∧
    (run winEnv (initialModel winEnv) [Msg.KeyMsg "enter", Msg.KeyMsg "backspace"]).list.width
      = 30 ∧
    (run winEnv (initialModel winEnv) [Msg.KeyMsg "enter", Msg.KeyMsg "backspace"]).list.items
      = (initialModel winEnv).list.items :=
  ⟨reachable_run winEnv _ _ Reachable.init, by decide, by decide, by decide, by decide,
    by decide⟩

/-- C5 (list height floor), at the example machine with a terminal of 12
rows: the resize gives the list the floor of 10 rows, entering `C:\` then
gives it 12 - 6 - 2 = 4 rows, and so does going back up; before any resize
the stored height is 0 and entering gives -8. -/
theorem height_below_floor :
    (run winEnv (initialModel winEnv) [Msg.WindowSizeMsg 80 12]).list.height = 10 ∧
    (run winEnv (initialModel winEnv) [Msg.WindowSizeMsg 80 12, Msg.KeyMsg "enter"]).list.height
      = 4 ∧
    (run winEnv (initialModel winEnv)
      [Msg.WindowSizeMsg 80 12, Msg.KeyMsg "enter", Msg.KeyMsg "backspace"]).list.height = 4 ∧
    (run winEnv (initialModel winEnv) [Msg.KeyMsg "enter"]).list.height = -8 := by
  decide

theorem themePair_cycleTheme (env : Env) (m : model) :
    themePair (cycleTheme env m) = nextTheme (themePair m) := by
  unfold cycleTheme
  rw [update_t]
  rfl

theorem themePair_cycleThemes (env : Env) (n : Nat) (m : model) :
    themePair (cycleThemes env m n) = nextTheme^[n] (themePair m) := by
  induction n generalizing m with
  | zero => rfl
  | succ n ih =>
    show themePair (cycleThemes env (cycleTheme env m) n) = _
    rw [ih, themePair_cycleTheme, Function.iterate_succ_apply]

theorem nextTheme_period : ∀ p ∈ themes, nextTheme^[15] p = p := by
  decide

theorem themeIndexFrom_absent (border : String) (ts : List (String × String)) (i : Nat)
    (h : ∀ t ∈ ts, t.1 ≠ border) : themeIndexFrom border ts i = 0 := by
  induction ts generalizing i with
  | nil => rfl
  | cons t ts ih =>
    unfold themeIndexFrom
    rw [if_neg (h t (List.mem_cons_self t ts))]
    exact ih (i + 1) (fun u hu => h u (List.mem_cons_of_mem t hu))

/-- C6, as stated, fails: with a hand-edited `config.json` the initial colours
are not in the theme table, and 15 CycleTheme events end at the first table
entry instead of the starting pair. -/
theorem theme_period_counterexample :
    themePair (initialModel editedEnv) = ("#123456", "#654321") ∧
    themePair (cycleThemes editedEnv (initialModel editedEnv) 15) = ("#FF69B4", "#FF1493") ∧
    themePair (cycleThemes editedEnv (initialModel editedEnv) 15)
      ≠ themePair (initialModel editedEnv) := by
  decide

/-- C6, amended (theme cycle has period 15): for every model whose colour
pair is an entry of the theme table, 15 CycleTheme events in a row give back
the starting pair. -/
theorem theme_period (env : Env) (m : model) (h : themePair m ∈ themes) :
    themePair (cycleThemes env m 15) = themePair m := by
  rw [themePair_cycleThemes]
  exact nextTheme_period _ h

/-- C6 amended, at the initial model of the example machine (default pair). -/
theorem theme_period_witness :
    themePair (initialModel winEnv) ∈ themes ∧
    themePair (cycleThemes winEnv (initialModel winEnv) 15) = themePair (initialModel winEnv) :=
  ⟨by decide, theme_period winEnv (initialModel winEnv) (by decide)⟩

/-- C7, as stated, fails: with a border colour that is in no table entry, one
CycleTheme event gives the table entry at index 1, not the one at index 0. -/
theorem theme_fallback_counterexample :
    (∀ t ∈ themes, t.1 ≠ (initialModel editedEnv).borderColor) ∧
    themePair (cycleTheme editedEnv (initialModel editedEnv)) = ("#00CED1", "#00FFFF") ∧
    themePair (cycleTheme editedEnv (initialModel editedEnv)) ≠ ("#FF69B4", "#FF1493") := by
  decide

/-- C7, amended (theme fallback): for every model whose border colour is the
border of no table entry, one CycleTheme event returns normally (no command,
the model with the new colours), the lookup falls back to index 0, and the
theme advances from there to the table entry at index 1, the pair
(#00CED1, #00FFFF), which is also what is saved. -/
theorem theme_fallback (env : Env) (m : model) (h : ∀ t ∈ themes, t.1 ≠ m.borderColor) :
    themeIndex m.borderColor = 0 ∧
    (m.Update env (Msg.KeyMsg "t")).cmd = Cmd.nil ∧
    themePair (m.Update env (Msg.KeyMsg "t")).m = ("#00CED1", "#00FFFF") ∧
    (m.Update env (Msg.KeyMsg "t")).effects
      = saveConfig env { BorderColor := "#00CED1", HighlightColor := "#00FFFF" } := by
  have h0 : themeIndex m.borderColor = 0 := themeIndexFrom_absent m.borderColor themes 0 h
  have hm : (m.Update env (Msg.KeyMsg "t")).m
      = { m with borderColor := "#00CED1", highlightColor := "#00FFFF",
                 list := m.list.SetDelegate "#00FFFF" } := by
    rw [update_t]
    unfold updateTheme
    simp only [h0]
    rfl
  refine ⟨h0, ?_, ?_, ?_⟩
  · rw [update_t]
    rfl
  · rw [hm]
    rfl
  · rw [update_t]
    unfold updateTheme
    simp only [h0]
    rfl

/-- C7 amended, at the example machine with the hand-edited configuration. -/
theorem theme_fallback_witness :
    (∀ t ∈ themes, t.1 ≠ (initialModel editedEnv).borderColor) ∧
    themePair ((initialModel editedEnv).Update editedEnv (Msg.KeyMsg "t")).m
      = ("#00CED1", "#00FFFF") :=
  ⟨by decide, (theme_fallback editedEnv (initialModel editedEnv) (by decide)).2.2.1⟩

/-- C8 (GoToParent is a no-op in the drive selection): for every model in the
drive selection, `Update` on `"backspace"` returns the model unchanged in every
field, the nil command and no effect; so any number of GoToParent events
leave the state as it is. -/
theorem backspace_noop_in_driveSelect (env : Env) (m : model) (h : m.driveSelect = true) :
    m.Update env (Msg.KeyMsg "backspace") = { m := m, cmd := Cmd.nil, effects := [] } ∧
    ∀ n, goToParents env m n = m := by
  refine ⟨?_, fun n => goToParents_driveSelect env n m h⟩
  rw [update_backspace]
  exact updateBackspace_drives env m h

/-- C8 at the initial model of the example machine. -/
theorem backspace_noop_in_driveSelect_witness :
    (initialModel winEnv).driveSelect = true ∧
    (initialModel winEnv).Update winEnv (Msg.KeyMsg "backspace")
      = { m := initialModel winEnv, cmd := Cmd.nil, effects := [] } ∧
    goToParents winEnv (initialModel winEnv) 5 = initialModel winEnv :=
  ⟨rfl, (backspace_noop_in_driveSelect winEnv (initialModel winEnv) rfl).1,
    (backspace_noop_in_driveSelect winEnv (initialModel winEnv) rfl).2 5⟩

/-- C9 (GoToParent boundary rule): for every model in browsing mode, with
`parent = filepath.Dir(currentDir)`: if the parent is the current path, or is
empty, or the current path has at most 3 bytes, `"backspace"` yields the drive
selection with the roots as items, an empty current path and the title
"Select Drive =^..^="; otherwise it yields browsing mode at the parent with
the listing of the parent as items. -/
theorem goToParent_boundary_rule (env : Env) (m : model) (h : m.driveSelect = false) :
    ((env.dir m.currentDir = m.currentDir ∨ env.dir m.currentDir = "" ∨
        (m.currentDir.utf8ByteSize : Int) ≤ 3) →
      (m.Update env (Msg.KeyMsg "backspace")).m.driveSelect = true ∧
      (m.Update env (Msg.KeyMsg "backspace")).m.list.items = m.drives ∧
      (m.Update env (Msg.KeyMsg "backspace")).m.currentDir = "" ∧
      (m.Update env (Msg.KeyMsg "backspace")).m.list.Title = "Select Drive =^..^=") ∧
    (¬ (env.dir m.currentDir = m.currentDir ∨ env.dir m.currentDir = "" ∨
        (m.currentDir.utf8ByteSize : Int) ≤ 3) →
      (m.Update env (Msg.KeyMsg "backspace")).m.driveSelect = false ∧
      (m.Update env (Msg.KeyMsg "backspace")).m.currentDir = env.dir m.currentDir ∧
      (m.Update env (Msg.KeyMsg "backspace")).m.list.items
        = listDirectory env (env.dir m.currentDir)) := by
  rw [update_backspace]
  constructor
  · intro htop
    rw [updateBackspace_top env m h htop]
    exact ⟨rfl, navList_items _ _ _, rfl, navList_title _ _ _⟩
  · intro htop
    rw [updateBackspace_parent env m h htop]
    exact ⟨rfl, rfl, navList_items _ _ _⟩

/-- C9 at the example machine: from `C:\Docs` to `C:\`, and from `C:\` to the
drive selection. -/
theorem goToParent_boundary_rule_witness :
    (run winEnv (initialModel winEnv) [Msg.KeyMsg "enter", Msg.KeyMsg "enter"]).driveSelect
      = false ∧
    (run winEnv (initialModel winEnv)
      [Msg.KeyMsg "enter", Msg.KeyMsg "enter", Msg.KeyMsg "backspace"]).currentDir = "C:\\" ∧
    (run winEnv (initialModel winEnv)
      [Msg.KeyMsg "enter", Msg.KeyMsg "enter", Msg.KeyMsg "backspace"]).list.items
        = listDirectory winEnv "C:\\" ∧
    (run winEnv (initialModel winEnv)
      [Msg.KeyMsg "enter", Msg.KeyMsg "backspace"]).list.Title = "Select Drive =^..^=" :=
  ⟨by decide,
   ((goToParent_boundary_rule winEnv
      (run winEnv (initialModel winEnv) [Msg.KeyMsg "enter", Msg.KeyMsg "enter"])
      (by decide)).2 (by decide)).2.1,
   ((goToParent_boundary_rule winEnv
      (run winEnv (initialModel winEnv) [Msg.KeyMsg "enter", Msg.KeyMsg "enter"])
      (by decide)).2 (by decide)).2.2,
   ((goToParent_boundary_rule winEnv
      (run winEnv (initialModel winEnv) [Msg.KeyMsg "enter"])
      (by decide)).1 (by decide)).2.2.2⟩

/-- C10 (Activate into a directory): for every model whose selected item `e`
is a root (drive selection) or a directory (browsing), `Update` on `"enter"`
yields the current path `e.Path`, the listing of `e.Path` as items, browsing
mode, the title "Browsing " followed by `e.Path`, and no active filter. -/
theorem activate_into_directory (env : Env) (m : model) (e : item)
    (hsel : m.list.SelectedItem = some e)
    (hk : m.driveSelect = true ∨ (m.driveSelect = false ∧ e.IsDir = true)) :
    (m.Update env (Msg.KeyMsg "enter")).m.currentDir = e.Path ∧
    (m.Update env (Msg.KeyMsg "enter")).m.list.items = listDirectory env e.Path ∧
    (m.Update env (Msg.KeyMsg "enter")).m.driveSelect = false ∧
    (m.Update env (Msg.KeyMsg "enter")).m.list.Title = "Browsing " ++ e.Path ∧
    (m.Update env (Msg.KeyMsg "enter")).m.list.filterState = FilterState.Unfiltered := by
  have hm : m.Update env (Msg.KeyMsg "enter")
      = { m := entered env m e.Path, cmd := Cmd.nil, effects := [] } := by
    rw [update_enter]
    rcases hk with hds | ⟨hds, hdir⟩
    · exact updateEnter_drive env m e hds hsel
    · exact updateEnter_dir env m e hds hsel hdir
  rw [hm]
  exact ⟨rfl, navList_items _ _ _, rfl, navList_title _ _ _, navList_filterState _ _ _⟩

/-- C10 at the example machine: the root `C:\` from the drive selection, then
the directory `Docs`. -/
theorem activate_into_directory_witness :
    (initialModel winEnv).list.SelectedItem = some ⟨"C:\\", true, "C:\\"⟩ ∧
    ((initialModel winEnv).Update winEnv (Msg.KeyMsg "enter")).m.list.Title = "Browsing C:\\" ∧
    ((initialModel winEnv).Update winEnv (Msg.KeyMsg "enter")).m.list.items
      = [⟨"Docs", true, "C:\\Docs"⟩, ⟨"a.txt", false, "C:\\a.txt"⟩] ∧
    ((run winEnv (initialModel winEnv) [Msg.KeyMsg "enter"]).Update winEnv
      (Msg.KeyMsg "enter")).m.currentDir = "C:\\Docs" :=
  ⟨by decide,
   (activate_into_directory winEnv (initialModel winEnv) ⟨"C:\\", true, "C:\\"⟩ (by decide)
      (Or.inl rfl)).2.2.2.1,
   (activate_into_directory winEnv (initialModel winEnv) ⟨"C:\\", true, "C:\\"⟩ (by decide)
      (Or.inl rfl)).2.1,
   (activate_into_directory winEnv (run winEnv (initialModel winEnv) [Msg.KeyMsg "enter"])
      ⟨"Docs", true, "C:\\Docs"⟩ (by decide) (Or.inr ⟨by decide, rfl⟩)).1⟩

/-! ## Files, failing listings and the configuration -/

theorem openFile_single (env : Env) (path : String) :
    ∃ name args, openFile env path = [Effect.exec name (args ++ [path])] := by
  unfold openFile
  split_ifs
  · exact ⟨"rundll32", ["url.dll,FileProtocolHandler"], rfl⟩
  · exact ⟨"open", [], rfl⟩
  · exact ⟨"xdg-open", [], rfl⟩

/-- C11 (Activate on a file changes nothing): for every model in browsing mode
whose selected item is not a directory, `Update` on `"enter"` returns the
model equal to the input in every field and the nil command, and its only
effect is `openFile` on the selected item's path: one process started with
that path as its last argument. -/
theorem activate_on_file (env : Env) (m : model) (e : item)
    (hds : m.driveSelect = false) (hsel : m.list.SelectedItem = some e)
    (hfile : e.IsDir = false) :
    m.Update env (Msg.KeyMsg "enter")
      = { m := m, cmd := Cmd.nil, effects := openFile env e.Path } ∧
    ∃ name args, (m.Update env (Msg.KeyMsg "enter")).effects
      = [Effect.exec name (args ++ [e.Path])] := by
  have hm := updateEnter_file env m e hds hsel hfile
  rw [update_enter, hm]
  exact ⟨rfl, openFile_single env e.Path⟩

/-- C11 at the example machine: in `C:\` with `a.txt` highlighted, the file is
handed to the Windows opener and the model stays as it is. -/
theorem activate_on_file_witness :
    (run winEnv (initialModel winEnv) [Msg.KeyMsg "enter", Msg.KeyMsg "down"]).list.SelectedItem
      = some ⟨"a.txt", false, "C:\\a.txt"⟩ ∧
    (run winEnv (initialModel winEnv) [Msg.KeyMsg "enter", Msg.KeyMsg "down"]).Update winEnv
        (Msg.KeyMsg "enter")
      = { m := run winEnv (initialModel winEnv) [Msg.KeyMsg "enter", Msg.KeyMsg "down"],
          cmd := Cmd.nil,
          effects := [Effect.exec "rundll32" ["url.dll,FileProtocolHandler", "C:\\a.txt"]] } :=
  ⟨by decide,
   (activate_on_file winEnv
      (run winEnv (initialModel winEnv) [Msg.KeyMsg "enter", Msg.KeyMsg "down"])
      ⟨"a.txt", false, "C:\\a.txt"⟩ (by decide) (by decide) rfl).1⟩

theorem listDirectory_failed (env : Env) (path : String) (h : env.readDir path = none) :
    listDirectory env path = [] := by
  unfold listDirectory
  rw [h]

/-- C12, as stated, fails: on a machine whose drive `C:\` cannot be read,
Activate on the root gives an empty list, but the mode changes from the
drive selection to browsing. -/
theorem listing_failure_counterexample :
    (initialModel lockedEnv).list.SelectedItem = some ⟨"C:\\", true, "C:\\"⟩ ∧
    lockedEnv.readDir "C:\\" = none ∧
    ((initialModel lockedEnv).Update lockedEnv (Msg.KeyMsg "enter")).m.list.items = [] ∧
    (initialModel lockedEnv).driveSelect = true ∧
    ((initialModel lockedEnv).Update lockedEnv (Msg.KeyMsg "enter")).m.driveSelect = false ∧
    ((initialModel lockedEnv).Update lockedEnv (Msg.KeyMsg "enter")).m.driveSelect
      ≠ (initialModel lockedEnv).driveSelect := by
  decide

/-- C12, amended (listing failure degrades silently): for every model and
every Activate or GoToParent event whose listing call fails, `Update` returns
normally (the nil command, no effect), the resulting items are the empty
sequence and the model is in browsing mode afterwards: the mode is the one
before the event when the event came in browsing mode, while an Activate in
the drive selection still switches to browsing. -/
theorem listing_failure_degrades (env : Env) (m : model) :
    (∀ e, m.list.SelectedItem = some e →
      (m.driveSelect = true ∨ (m.driveSelect = false ∧ e.IsDir = true)) →
      env.readDir e.Path = none →
        (m.Update env (Msg.KeyMsg "enter")).cmd = Cmd.nil ∧
        (m.Update env (Msg.KeyMsg "enter")).effects = [] ∧
        (m.Update env (Msg.KeyMsg "enter")).m.list.items = [] ∧
        (m.Update env (Msg.KeyMsg "enter")).m.driveSelect = false ∧
        (m.driveSelect = false →
          (m.Update env (Msg.KeyMsg "enter")).m.driveSelect = m.driveSelect)) ∧
    (m.driveSelect = false →
      ¬ (env.dir m.currentDir = m.currentDir ∨ env.dir m.currentDir = "" ∨
          (m.currentDir.utf8ByteSize : Int) ≤ 3) →
      env.readDir (env.dir m.currentDir) = none →
        (m.Update env (Msg.KeyMsg "backspace")).cmd = Cmd.nil ∧
        (m.Update env (Msg.KeyMsg "backspace")).effects = [] ∧
        (m.Update env (Msg.KeyMsg "backspace")).m.list.items = [] ∧
        (m.Update env (Msg.KeyMsg "backspace")).m.driveSelect = m.driveSelect) := by
  constructor
  · intro e hsel hk hfail
    have hm : m.Update env (Msg.KeyMsg "enter")
        = { m := entered env m e.Path, cmd := Cmd.nil, effects := [] } := by
      rw [update_enter]
      rcases hk with hds | ⟨hds, hdir⟩
      · exact updateEnter_drive env m e hds hsel
      · exact updateEnter_dir env m e hds hsel hdir
    rw [hm]
    refine ⟨rfl, rfl, ?_, rfl, fun hds => hds.symm⟩
    exact (navList_items _ _ _).trans (listDirectory_failed env e.Path hfail)
  · intro hds htop hfail
    rw [update_backspace, updateBackspace_parent env m hds htop]
    refine ⟨rfl, rfl, ?_, hds.symm⟩
    exact (navList_items _ _ _).trans (listDirectory_failed env _ hfail)

/-- C12 amended, at the example machine once nothing on it can be read: going
up from `C:\Docs`, and entering `C:\` from the drive selection. -/
theorem listing_failure_degrades_witness :
    ((entered lockedEnv (initialModel lockedEnv) "C:\\Docs").Update lockedEnv
      (Msg.KeyMsg "backspace")).m.list.items = [] ∧
    ((entered lockedEnv (initialModel lockedEnv) "C:\\Docs").Update lockedEnv
      (Msg.KeyMsg "backspace")).m.driveSelect = false ∧
    ((initialModel lockedEnv).Update lockedEnv (Msg.KeyMsg "enter")).m.list.items = [] :=
  ⟨((listing_failure_degrades lockedEnv
      (entered lockedEnv (initialModel lockedEnv) "C:\\Docs")).2
        rfl (by decide) rfl).2.2.1,
   ((listing_failure_degrades lockedEnv
      (entered lockedEnv (initialModel lockedEnv) "C:\\Docs")).2
        rfl (by decide) rfl).2.2.2,
   ((listing_failure_degrades lockedEnv (initialModel lockedEnv)).1
      ⟨"C:\\", true, "C:\\"⟩ (by decide) (Or.inl rfl) rfl).2.2.1⟩

/-- C13 (config fallback): `loadConfig` returns the default pair when
`config.json` cannot be read, but when the file holds text that is not JSON
the error of `json.Unmarshal` is dropped and the zero `Config`, with two
empty strings, is returned and becomes the colours of the initial model. -/
theorem loadConfig_malformed :
    loadConfig winEnv = { BorderColor := "#FF69B4", HighlightColor := "#FF1493" } ∧
    brokenEnv.readFile "config.json" = some "not json" ∧
    loadConfig brokenEnv = { BorderColor := "", HighlightColor := "" } ∧
    loadConfig brokenEnv ≠ { BorderColor := "#FF69B4", HighlightColor := "#FF1493" } ∧
    themePair (initialModel brokenEnv) = ("", "") := by
  decide

/-! ## Theme cycling and resizing, field by field -/

/-- C14 (CycleTheme frame): for every model, `Update` on `"t"` returns the
input model with only `borderColor`, `highlightColor` and the colour of the
list's delegate replaced; the current path, the mode, the roots, the list's
items, title and size, the terminal size, `maxItemWidth`, the padding and
`showExtendedHelp` are those of the input. -/
theorem cycleTheme_frame (env : Env) (m : model) :
    (m.Update env (Msg.KeyMsg "t")).m
      = { m with
          borderColor := (nextTheme (themePair m)).1
          highlightColor := (nextTheme (themePair m)).2
          list := { m.list with delegateColor := (nextTheme (themePair m)).2 } } ∧
    (m.Update env (Msg.KeyMsg "t")).m.currentDir = m.currentDir ∧
    (m.Update env (Msg.KeyMsg "t")).m.driveSelect = m.driveSelect ∧
    (m.Update env (Msg.KeyMsg "t")).m.drives = m.drives ∧
    (m.Update env (Msg.KeyMsg "t")).m.list.items = m.list.items ∧
    (m.Update env (Msg.KeyMsg "t")).m.list.Title = m.list.Title ∧
    (m.Update env (Msg.KeyMsg "t")).m.list.width = m.list.width ∧
    (m.Update env (Msg.KeyMsg "t")).m.list.height = m.list.height ∧
    (m.Update env (Msg.KeyMsg "t")).m.width = m.width ∧
    (m.Update env (Msg.KeyMsg "t")).m.height = m.height ∧
    (m.Update env (Msg.KeyMsg "t")).m.maxItemWidth = m.maxItemWidth ∧
    (m.Update env (Msg.KeyMsg "t")).m.paddingX = m.paddingX ∧
    (m.Update env (Msg.KeyMsg "t")).m.paddingY = m.paddingY ∧
    (m.Update env (Msg.KeyMsg "t")).m.showExtendedHelp = m.showExtendedHelp := by
  rw [update_t]
  exact ⟨rfl, rfl, rfl, rfl, rfl, rfl, rfl, rfl, rfl, rfl, rfl, rfl, rfl, rfl⟩

theorem themeIndexFrom_eq_findIdx (border : String) (ts : List (String × String)) (i : Nat) :
    themeIndexFrom border ts i = (ts.findIdx? (fun t => t.1 == border) i).getD 0 := by
  induction ts generalizing i with
  | nil => rfl
  | cons t ts ih =>
    unfold themeIndexFrom
    rw [List.findIdx?_cons]
    by_cases h : t.1 = border
    · simp [h]
    · simp [h, ih]

/-- C15 (CycleTheme successor): for every model, `Update` on `"t"` sets the
colour pair to the registry entry at `(p + 1) mod 15`, where `p` is the
position of the first registry entry whose border is the current border
colour, or 0 when there is none; the lookup loop of the program computes
that `p`, and the configuration saved is exactly the new pair. -/
theorem cycleTheme_successor (env : Env) (m : model) :
    themeIndex m.borderColor = firstBorderIndex m.borderColor ∧
    themePair (m.Update env (Msg.KeyMsg "t")).m
      = themes.getD ((firstBorderIndex m.borderColor + 1) % 15) ("", "") ∧
    (m.Update env (Msg.KeyMsg "t")).effects
      = saveConfig env
          { BorderColor := (m.Update env (Msg.KeyMsg "t")).m.borderColor
            HighlightColor := (m.Update env (Msg.KeyMsg "t")).m.highlightColor } := by
  have h0 : themeIndex m.borderColor = firstBorderIndex m.borderColor :=
    themeIndexFrom_eq_findIdx m.borderColor themes 0
  refine ⟨h0, ?_, ?_⟩
  · rw [← h0, update_t]
    rfl
  · rw [update_t]
    rfl

theorem goInt_sub (a b : Int) : goInt (goInt a - goInt b) = goInt (a - b) := by
  unfold goInt
  omega

theorem goInt_of_inRange (x : Int) (hlo : -9223372036854775808 ≤ x)
    (hhi : x < 9223372036854775808) : goInt x = x := by
  unfold goInt
  omega

theorem resize_list_height (env : Env) (m : model) (w h : Int) :
    (m.Update env (Msg.WindowSizeMsg w h)).m.list.height
      = max (goInt (h - 6 - 2 * m.paddingY)) 10 := by
  show (if goInt (goInt (h - 6) - goInt (m.paddingY * 2)) < 10 then 10
      else goInt (goInt (h - 6) - goInt (m.paddingY * 2)))
    = max (goInt (h - 6 - 2 * m.paddingY)) 10
  rw [goInt_sub, Int.mul_comm m.paddingY 2]
  split_ifs with hlt
  · exact (max_eq_right (le_of_lt hlt)).symm
  · exact (max_eq_left (not_lt.mp hlt)).symm

/-- C16 (Resize): for every model and every size, `Update` on the resize
message stores the width and the height, gives the list the height
`max(h - 6 - 2*paddingY, 10)` at the width `maxItemWidth`, and leaves the
current path, the mode, the roots, the list's items and title, the colours
and `showExtendedHelp` as they were.  The height is computed in Go `int`
arithmetic: it is the maximum of 10 and the 64-bit wrap of
`h - 6 - 2*paddingY`, which is the plain maximum whenever that difference is
a 64-bit value, as it is for every terminal height. -/
theorem resize_sets_size (env : Env) (m : model) (w h : Int) :
    (m.Update env (Msg.WindowSizeMsg w h)).m.width = w ∧
    (m.Update env (Msg.WindowSizeMsg w h)).m.height = h ∧
    (m.Update env (Msg.WindowSizeMsg w h)).m.list.height
      = max (goInt (h - 6 - 2 * m.paddingY)) 10 ∧
    (-9223372036854775808 ≤ h - 6 - 2 * m.paddingY →
      h - 6 - 2 * m.paddingY < 9223372036854775808 →
      (m.Update env (Msg.WindowSizeMsg w h)).m.list.height
        = max (h - 6 - 2 * m.paddingY) 10) ∧
    (m.Update env (Msg.WindowSizeMsg w h)).m.list.width = m.maxItemWidth ∧
    (m.Update env (Msg.WindowSizeMsg w h)).m.currentDir = m.currentDir ∧
    (m.Update env (Msg.WindowSizeMsg w h)).m.driveSelect = m.driveSelect ∧
    (m.Update env (Msg.WindowSizeMsg w h)).m.drives = m.drives ∧
    (m.Update env (Msg.WindowSizeMsg w h)).m.list.items = m.list.items ∧
    (m.Update env (Msg.WindowSizeMsg w h)).m.list.Title = m.list.Title ∧
    (m.Update env (Msg.WindowSizeMsg w h)).m.borderColor = m.borderColor ∧
    (m.Update env (Msg.WindowSizeMsg w h)).m.highlightColor = m.highlightColor ∧
    (m.Update env (Msg.WindowSizeMsg w h)).m.list.delegateColor = m.list.delegateColor ∧
    (m.Update env (Msg.WindowSizeMsg w h)).m.showExtendedHelp = m.showExtendedHelp := by
  refine ⟨rfl, rfl, resize_list_height env m w h, ?_, rfl, rfl, rfl, rfl, rfl, rfl, rfl, rfl,
    rfl, rfl⟩
  intro hlo hhi
  rw [resize_list_height env m w h, goInt_of_inRange _ hlo hhi]

/-- C16 at the example machine: a terminal of 100 by 40 gives the list 32
rows, one of 80 by 12 gives it the floor of 10 rows. -/
theorem resize_sets_size_witness :
    ((initialModel winEnv).Update winEnv (Msg.WindowSizeMsg 100 40)).m.list.height = 32 ∧
    ((initialModel winEnv).Update winEnv (Msg.WindowSizeMsg 80 12)).m.list.height = 10 ∧
    ((initialModel winEnv).Update winEnv (Msg.WindowSizeMsg 100 40)).m.width = 100 ∧
    ((initialModel winEnv).Update winEnv (Msg.WindowSizeMsg 100 40)).m.height = 40 :=
  ⟨((resize_sets_size winEnv (initialModel winEnv) 100 40).2.2.2.1 (by decide) (by decide)).trans
      (by decide),
   ((resize_sets_size winEnv (initialModel winEnv) 80 12).2.2.2.1 (by decide) (by decide)).trans
      (by decide),
   (resize_sets_size winEnv (initialModel winEnv) 100 40).1,
   (resize_sets_size winEnv (initialModel winEnv) 100 40).2.1⟩

/-- The resize at the smallest 64-bit height: `h - 6` wraps around, the list
is given 9223372036854775800 rows, and the floor of 10 does not apply. -/
theorem resize_wraps_at_minInt :
    ((initialModel winEnv).Update winEnv
      (Msg.WindowSizeMsg 80 (-9223372036854775808))).m.list.height = 9223372036854775800 := by
  decide

/-! ## Help footer, title and registry invariants -/

theorem resetFilter_showHelp (l : ListModel) : l.ResetFilter.showHelp = l.showHelp := by
  unfold ListModel.ResetFilter
  split <;> rfl

theorem navList_showHelp (m : model) (entries : List item) (title : String) :
    (navList m entries title).showHelp = m.list.showHelp := by
  simp [navList, ListModel.SetSize, ListModel.SetItems, resetFilter_showHelp]

/-- What a call of `Update` does to the two help flags: the `"?"` key negates
`showExtendedHelp` and gives the list the negation of the new value; every
other message leaves both flags alone. -/
theorem update_help_cases (env : Env) (m : model) (msg : Msg) :
    ((m.Update env msg).m.showExtendedHelp = !m.showExtendedHelp ∧
      (m.Update env msg).m.list.showHelp = !(m.Update env msg).m.showExtendedHelp) ∨
    ((m.Update env msg).m.showExtendedHelp = m.showExtendedHelp ∧
      (m.Update env msg).m.list.showHelp = m.list.showHelp) := by
  cases msg with
  | WindowSizeMsg w h => exact Or.inr ⟨rfl, rfl⟩
  | other tag => exact Or.inr ⟨rfl, rfl⟩
  | KeyMsg s =>
    unfold model.Update
    simp only
    split_ifs with h1 h2 h3 h4 h5 h6
    · exact Or.inl ⟨rfl, rfl⟩
    · exact Or.inr ⟨rfl, rfl⟩
    · cases hsel : m.list.SelectedItem with
      | none =>
        rw [updateEnter_none env m hsel]
        exact Or.inr ⟨rfl, rfl⟩
      | some i =>
        cases hds : m.driveSelect with
        | true =>
          rw [updateEnter_drive env m i hds hsel]
          exact Or.inr ⟨rfl, navList_showHelp _ _ _⟩
        | false =>
          cases hdir : i.IsDir with
          | true =>
            rw [updateEnter_dir env m i hds hsel hdir]
            exact Or.inr ⟨rfl, navList_showHelp _ _ _⟩
          | false =>
            rw [updateEnter_file env m i hds hsel hdir]
            exact Or.inr ⟨rfl, rfl⟩
    · cases hds : m.driveSelect with
      | true =>
        rw [updateBackspace_drives env m hds]
        exact Or.inr ⟨rfl, rfl⟩
      | false =>
        by_cases htop : atTop env m
        · rw [updateBackspace_top env m hds htop]
          exact Or.inr ⟨rfl, navList_showHelp _ _ _⟩
        · rw [updateBackspace_parent env m hds htop]
          exact Or.inr ⟨rfl, navList_showHelp _ _ _⟩
    · exact Or.inr ⟨rfl, rfl⟩
    · rw [updateReveal_m]
      exact Or.inr ⟨rfl, rfl⟩
    · exact Or.inr ⟨rfl, rfl⟩

theorem helpFooter_of_reachable (env : Env) (m : model) (h : Reachable env m) :
    m.list.showHelp = !m.showExtendedHelp := by
  induction h with
  | init => rfl
  | step m msg _ ih =>
    rcases update_help_cases env m msg with ⟨_, h2⟩ | ⟨h1, h2⟩
    · exact h2
    · rw [h1, h2]
      exact ih

/-- C17 (help toggle): for every model, `Update` on `"?"` negates
`showExtendedHelp` and sets the list's help-footer flag to the negation of
the new value, and two toggles in a row restore `showExtendedHelp`; in every
state reachable from the initial model the list's help footer is shown if
and only if `showExtendedHelp` is false. -/
theorem help_toggle (env : Env) (m : model) :
    (m.Update env (Msg.KeyMsg "?")).m.showExtendedHelp = (!m.showExtendedHelp) ∧
    (m.Update env (Msg.KeyMsg "?")).m.list.showHelp
      = (!(m.Update env (Msg.KeyMsg "?")).m.showExtendedHelp) ∧
    ((m.Update env (Msg.KeyMsg "?")).m.Update env (Msg.KeyMsg "?")).m.showExtendedHelp
      = m.showExtendedHelp ∧
    (Reachable env m → (m.list.showHelp = true ↔ m.showExtendedHelp = false)) := by
  refine ⟨rfl, rfl, ?_, ?_⟩
  · show (!(!m.showExtendedHelp)) = m.showExtendedHelp
    exact Bool.not_not _
  · intro h
    rw [helpFooter_of_reachable env m h]
    cases m.showExtendedHelp <;> decide

/-- C17 at the example machine, after opening the extended help and entering
`C:\`: the footer of the list is hidden. -/
theorem help_toggle_witness :
    Reachable winEnv (run winEnv (initialModel winEnv) [Msg.KeyMsg "?", Msg.KeyMsg "enter"]) ∧
    (run winEnv (initialModel winEnv) [Msg.KeyMsg "?", Msg.KeyMsg "enter"]).showExtendedHelp
      = true ∧
    ((run winEnv (initialModel winEnv) [Msg.KeyMsg "?", Msg.KeyMsg "enter"]).list.showHelp = true
      ↔ (run winEnv (initialModel winEnv) [Msg.KeyMsg "?", Msg.KeyMsg "enter"]).showExtendedHelp
        = false) :=
  ⟨reachable_run winEnv _ _ Reachable.init, by decide,
   (help_toggle winEnv
      (run winEnv (initialModel winEnv) [Msg.KeyMsg "?", Msg.KeyMsg "enter"])).2.2.2
      (reachable_run winEnv _ _ Reachable.init)⟩

theorem title_of_reachable (env : Env) (m : model) (h : Reachable env m) :
    (m.driveSelect = true → m.list.Title = "Select Drive =^..^=") ∧
    (m.driveSelect = false → m.list.Title = "Browsing " ++ m.currentDir) := by
  induction h with
  | init => exact ⟨fun _ => rfl, fun hc => Bool.noConfusion (show true = false from hc)⟩
  | step m msg _ ih =>
    rcases update_nav_cases env m msg with ⟨i, _, _, he⟩ | ⟨_, _, he⟩ | ⟨_, _, he⟩ | hs
    · rw [he]
      exact ⟨fun hc => Bool.noConfusion (show false = true from hc),
        fun _ => navList_title _ _ _⟩
    · rw [he]
      exact ⟨fun _ => navList_title _ _ _,
        fun hc => Bool.noConfusion (show true = false from hc)⟩
    · rw [he]
      exact ⟨fun hc => Bool.noConfusion (show false = true from hc),
        fun _ => navList_title _ _ _⟩
    · obtain ⟨hcd, hds, _, _, hti⟩ := hs
      rw [hcd, hds, hti]
      exact ih

/-- C18 (title tracks mode): in every state reachable from the initial model
the list title is "Select Drive =^..^=" in the drive selection and
"Browsing " followed by the current path in browsing mode. -/
theorem title_tracks_mode (env : Env) (m : model) (h : Reachable env m) :
    (m.driveSelect = true → m.list.Title = "Select Drive =^..^=") ∧
    (m.driveSelect = false → m.list.Title = "Browsing " ++ m.currentDir) :=
  title_of_reachable env m h

/-- C18 at the example machine: in `C:\Docs`, and back in the drive selection
after two steps up. -/
theorem title_tracks_mode_witness :
    Reachable winEnv
      (run winEnv (initialModel winEnv) [Msg.KeyMsg "enter", Msg.KeyMsg "t", Msg.KeyMsg "enter"]) ∧
    (run winEnv (initialModel winEnv)
      [Msg.KeyMsg "enter", Msg.KeyMsg "t", Msg.KeyMsg "enter"]).list.Title = "Browsing C:\\Docs" ∧
    (run winEnv (initialModel winEnv)
      [Msg.KeyMsg "enter", Msg.KeyMsg "enter", Msg.KeyMsg "backspace",
        Msg.KeyMsg "backspace"]).list.Title = "Select Drive =^..^=" :=
  ⟨reachable_run winEnv _ _ Reachable.init,
   (title_tracks_mode winEnv
      (run winEnv (initialModel winEnv) [Msg.KeyMsg "enter", Msg.KeyMsg "t", Msg.KeyMsg "enter"])
      (reachable_run winEnv _ _ Reachable.init)).2 (by decide),
   (title_tracks_mode winEnv
      (run winEnv (initialModel winEnv)
        [Msg.KeyMsg "enter", Msg.KeyMsg "enter", Msg.KeyMsg "backspace", Msg.KeyMsg "backspace"])
      (reachable_run winEnv _ _ Reachable.init)).1 (by decide)⟩

theorem themes_borders_nodup : (themes.map Prod.fst).Nodup := by
  decide

theorem nextTheme_mem (p : String × String) : nextTheme p ∈ themes := by
  unfold nextTheme
  have hlt : (themeIndex p.1 + 1) % themes.length < themes.length :=
    Nat.mod_lt _ (by decide)
  rw [List.getD_eq_getElem themes ("", "") hlt]
  exact List.getElem_mem hlt

theorem nextTheme_at : ∀ i, i < 15 →
    nextTheme (themes.getD i ("", "")) = themes.getD ((i + 1) % 15) ("", "") := by
  decide

theorem nextTheme_visits : ∀ p ∈ themes,
    ((List.range 15).map (fun k => nextTheme^[k + 1] p)).Perm themes := by
  decide

/-- C19 (theme stays in the registry): the 15 registry border colours are
pairwise distinct; for every model, after one CycleTheme event the colour
pair is an entry of the registry; a CycleTheme event on a model whose pair
is the entry at index `i` gives exactly the entry at index `(i + 1) mod 15`;
and from a pair in the registry, the pairs after 1, 2, ..., 15 CycleTheme
events are the registry entries, each once. -/
theorem theme_stays_in_registry (env : Env) (m : model) :
    (themes.map Prod.fst).Nodup ∧
    themePair (cycleTheme env m) ∈ themes ∧
    (∀ i, i < 15 → themePair m = themes.getD i ("", "") →
      themePair (cycleTheme env m) = themes.getD ((i + 1) % 15) ("", "")) ∧
    (themePair m ∈ themes →
      ((List.range 15).map (fun k => themePair (cycleThemes env m (k + 1)))).Perm themes) := by
  refine ⟨themes_borders_nodup, ?_, ?_, ?_⟩
  · rw [themePair_cycleTheme]
    exact nextTheme_mem _
  · intro i hi hp
    rw [themePair_cycleTheme, hp]
    exact nextTheme_at i hi
  · intro hp
    have hmap : (List.range 15).map (fun k => themePair (cycleThemes env m (k + 1)))
        = (List.range 15).map (fun k => nextTheme^[k + 1] (themePair m)) :=
      List.map_congr_left (fun k _ => themePair_cycleThemes env (k + 1) m)
    rw [hmap]
    exact nextTheme_visits _ hp

/-- C19 at the example machine with the hand-edited configuration: after the
first CycleTheme event the pair is in the registry, and the next 15 events
go through every registry entry once. -/
theorem theme_stays_in_registry_witness :
    themePair (initialModel editedEnv) ∉ themes ∧
    themePair (cycleTheme editedEnv (initialModel editedEnv)) ∈ themes ∧
    ((List.range 15).map
      (fun k => themePair
        (cycleThemes editedEnv (cycleTheme editedEnv (initialModel editedEnv)) (k + 1)))).Perm
      themes :=
  ⟨by decide,
   (theme_stays_in_registry editedEnv (initialModel editedEnv)).2.1,
   (theme_stays_in_registry editedEnv (cycleTheme editedEnv (initialModel editedEnv))).2.2.2
     (theme_stays_in_registry editedEnv (initialModel editedEnv)).2.1⟩

end Kittyfs
